import Mathlib

set_option autoImplicit false

/-!
Shallow embedding of the `project-management-agents` repository (Python) for
specification checking.  The main subject is the repository-update agent
(`src/agents/update_repositories/update_repositories_agent.py`): its status
inspector, reconciler (`update_repository`), batch orchestrator (`run`) and
repository locator (`get_repositories_list`), plus the Postman-collection
merge of the documentation agent
(`src/agents/update_documentation/update_documentation_agent.py`).

Modelling conventions:
* A local Git working tree is abstracted by `RepoState`: the observable facts
  the agent queries (existence, validity, dirty flag, untracked count, branch
  name, ahead/behind counts, presence of conflict markers) together with
  environment-failure switches (`pullError`, `pushError`, `commitError`)
  standing for the exceptions the underlying git library may raise.
* Git operations the agent executes are recorded in a trace of `GitAction`s;
  an action enters the trace exactly when the corresponding mutating git
  call (`repo.index.commit`, `origin.pull`, `origin.push`) is issued.
* The staged/unstaged distinction of the git index is collapsed into the
  single `isDirty` flag (the agent itself only consumes `is_dirty` and the
  porcelain output, both of which cover staged and unstaged changes).
* A failing pull/push/commit leaves the modelled tree unchanged.
* Filesystem paths are lists of path components.
-/

namespace PMA

/-- A path, as a list of components (`Path` in the Python source). -/
abbrev FPath := List String

/-- The mutating git calls the agent can issue against a working tree. -/
inductive GitAction where
  | commit
  | pull
  | push
deriving DecidableEq, Repr

/-- Abstract state of one local repository path: everything the agent can
observe about it, plus switches modelling environment failures of the
underlying git operations. -/
structure RepoState where
  /-- `repo_path.exists()` -/
  dirExists : Bool
  /-- `Repo(repo_path)` succeeds (no `InvalidGitRepositoryError`). -/
  valid : Bool
  /-- message carried by the exception when `valid = false` -/
  invalidError : String
  /-- `repo.is_dirty()` -/
  isDirty : Bool
  /-- `len(repo.untracked_files)` -/
  untracked : Nat
  /-- `repo.active_branch.name` -/
  branch : String
  /-- commits on the local branch not on `origin/<branch>` -/
  ahead : Nat
  /-- commits on `origin/<branch>` not on the local branch -/
  behind : Nat
  /-- conflict markers present in the unmerged diff entries -/
  conflictMarkers : Bool
  /-- `origin.pull()` would raise (network error, merge failure, ...) -/
  pullError : Bool
  /-- `origin.push()` would raise -/
  pushError : Bool
  /-- `repo.git.add` / `repo.index.commit` would raise -/
  commitError : Bool
deriving DecidableEq, Repr

/-- The status snapshot built by `UpdateRepositoriesAgent.get_repo_status`
(lines 210-301 of the source).  For an invalid repository the Python dict
only holds `valid` and `error`; the remaining fields are modelled with the
defaults the callers use via `.get(key, default)`. -/
structure RepoStatus where
  valid : Bool
  error : String
  branch : String
  is_dirty : Bool
  untracked_files : Nat
  ahead : Nat
  behind : Nat
  has_conflicts : Bool
deriving DecidableEq, Repr

/-- `UpdateRepositoriesAgent.get_repo_status`.  Conflicts are only examined
when the tree is dirty (source lines 291-299), so
`has_conflicts = is_dirty && conflictMarkers`. -/
def get_repo_status (s : RepoState) : RepoStatus :=
  if s.valid then
    { valid := true
      error := ""
      branch := s.branch
      is_dirty := s.isDirty
      untracked_files := s.untracked
      ahead := s.ahead
      behind := s.behind
      has_conflicts := s.isDirty && s.conflictMarkers }
  else
    { valid := false
      error := s.invalidError
      branch := ""
      is_dirty := false
      untracked_files := 0
      ahead := 0
      behind := 0
      has_conflicts := false }

/-- `UpdateRepositoriesAgent.commit_changes` (source lines 303-385).
Returns (returned boolean, new state, issued git actions).  When there is
nothing to commit it reports success without acting; in dry-run mode it
reports success before acting. -/
def commit_changes (s : RepoState) (dry_run : Bool) : Bool × RepoState × List GitAction :=
  if !s.valid then (false, s, [])
  else if !s.isDirty && s.untracked == 0 then (true, s, [])
  else if dry_run then (true, s, [])
  else if s.commitError then (false, s, [.commit])
  else (true, { s with isDirty := false, untracked := 0, ahead := s.ahead + 1 }, [.commit])

/-- `UpdateRepositoriesAgent.pull_repository` (source lines 625-667).
The dry-run check precedes the dirty-tree check; a real pull merges the
remote commits: `behind` drops to 0 and, when the branches had diverged, a
merge commit is created on top of the local ones. -/
def pull_repository (s : RepoState) (dry_run : Bool) : Bool × RepoState × List GitAction :=
  if !s.valid then (false, s, [])
  else if dry_run then (true, s, [])
  else if s.isDirty then (false, s, [])
  else if s.pullError then (false, s, [.pull])
  else (true, { s with behind := 0, ahead := if s.ahead > 0 then s.ahead + 1 else 0 }, [.pull])

/-- `UpdateRepositoriesAgent.push_repository` (source lines 669-707).
It re-inspects the repository status itself and reports success without
acting when `ahead = 0`; the dry-run check follows that inspection. -/
def push_repository (s : RepoState) (dry_run : Bool) : Bool × RepoState × List GitAction :=
  if !s.valid then (false, s, [])
  else if (get_repo_status s).ahead == 0 then (true, s, [])
  else if dry_run then (true, s, [])
  else if s.pushError then (false, s, [.push])
  else (true, { s with ahead := 0 }, [.push])

/-- `UpdateRepositoriesAgent.handle_conflicts` (source lines 709-727):
true iff the fresh status reports no conflicts. -/
def handle_conflicts (s : RepoState) : Bool :=
  !(get_repo_status s).has_conflicts

/-- A located repository (`{"name", "org", "local_path"}` dict built by
`get_repositories_list`). -/
structure RepoRef where
  name : String
  org : String
  local_path : FPath
deriving DecidableEq, Repr

/-- The per-repository result dict built by
`UpdateRepositoriesAgent.update_repository` (source lines 745-754). -/
structure UpdResult where
  name : String
  path : FPath
  success : Bool
  pulled : Bool
  pushed : Bool
  committed : Bool
  has_conflicts : Bool
  errors : List String
deriving DecidableEq, Repr

/-- The auto-commit block of `update_repository` (source lines 779-800):
(committed flag, errors contributed, state afterwards, actions issued).
`has_changes` reflects a non-empty porcelain status, i.e. dirty or
untracked files present. -/
def commitPhase (s : RepoState) (auto_commit dry_run : Bool) :
    Bool × List String × RepoState × List GitAction :=
  if auto_commit then
    if s.isDirty || s.untracked > 0 then
      match commit_changes s dry_run with
      | (true, s1, tr) => (true, [], s1, tr)
      | (false, s1, tr) => (false, ["Error al hacer commit automático"], s1, tr)
    else (false, [], s, [])
  else (false, [], s, [])

/-- The status `update_repository` consults for its pull/push guards: the
initial snapshot, refreshed (source line 795) exactly when the auto-commit
step reported success.  It is *not* refreshed after a pull. -/
def statusAfterCommit (s : RepoState) (auto_commit dry_run : Bool) : RepoStatus :=
  let cp := commitPhase s auto_commit dry_run
  if cp.1 then get_repo_status cp.2.2.1 else get_repo_status s

/-- The pull block of `update_repository` (source lines 802-813), applied
to the state `s1` left by the auto-commit block and to the `behind` count
of the consulted status. -/
def pullPhase (s1 : RepoState) (behind : Nat) (dry_run : Bool) :
    Bool × List String × RepoState × List GitAction :=
  if behind > 0 then
    match pull_repository s1 dry_run with
    | (true, s2, tr) => (true, [], s2, tr)
    | (false, s2, tr) => (false, ["Error al hacer pull"], s2, tr)
  else (false, [], s1, [])

/-- The push block of `update_repository` (source lines 815-826), applied
to the state `s2` left by the pull block and to the `ahead` count of the
consulted status (which was *not* refreshed by the pull). -/
def pushPhase (s2 : RepoState) (ahead : Nat) (dry_run : Bool) :
    Bool × List String × RepoState × List GitAction :=
  if ahead > 0 then
    match push_repository s2 dry_run with
    | (true, s3, tr) => (true, [], s3, tr)
    | (false, s3, tr) => (false, ["Error al hacer push"], s3, tr)
  else (false, [], s2, [])

/-- The state of the working tree when the push block starts. -/
def stateAfterPullPhase (s : RepoState) (auto_commit dry_run : Bool) : RepoState :=
  (pullPhase (commitPhase s auto_commit dry_run).2.2.1
    (statusAfterCommit s auto_commit dry_run).behind dry_run).2.2.1

/-- The commit/pull/push sequence of `update_repository` (source lines
779-837) after the guards have passed. -/
def reconcileBody (info : RepoRef) (s : RepoState) (auto_commit dry_run : Bool) :
    UpdResult × RepoState × List GitAction :=
  let cp := commitPhase s auto_commit dry_run
  let status1 := statusAfterCommit s auto_commit dry_run
  let pp := pullPhase cp.2.2.1 status1.behind dry_run
  let qq := pushPhase pp.2.2.1 status1.ahead dry_run
  let errors := cp.2.1 ++ pp.2.1 ++ qq.2.1
  ({ name := info.name, path := info.local_path
     success := errors.isEmpty || pp.1 || qq.1
     pulled := pp.1, pushed := qq.1, committed := cp.1
     has_conflicts := false, errors := errors },
   qq.2.2.1, cp.2.2.2 ++ pp.2.2.2 ++ qq.2.2.2)

/-- `UpdateRepositoriesAgent.update_repository` (source lines 729-837):
the per-repository reconciler.  Returns the result dict, the final state of
the working tree, and the trace of git actions issued. -/
def update_repository (info : RepoRef) (s : RepoState) (auto_commit dry_run : Bool) :
    UpdResult × RepoState × List GitAction :=
  let r0 : UpdResult :=
    { name := info.name, path := info.local_path, success := false, pulled := false
      pushed := false, committed := false, has_conflicts := false, errors := [] }
  if !s.dirExists then
    ({ r0 with errors := ["Directorio no existe"] }, s, [])
  else
    let status := get_repo_status s
    if !status.valid then
      ({ r0 with errors := [status.error] }, s, [])
    else if !handle_conflicts s then
      ({ r0 with has_conflicts := true
                 errors := ["Conflictos detectados - requiere resolución manual"] }, s, [])
    else
      reconcileBody info s auto_commit dry_run

/-! ### Repository locator (`get_repositories_list`, source lines 49-208) -/

/-- The parsed GitHub configuration file (`load_github_config`).  A missing
or empty file is modelled as `none` on the `LocatorEnv` side; `organization`
is optional because the source reads it with a `"trinityweb"` default.
`local_paths` is an association list (Python dict, keys unique). -/
structure GithubConfig where
  organization : Option String
  repositories : List String
  local_paths : List (String × FPath)
deriving DecidableEq, Repr

/-- The environment the locator runs against: the project root, the relevant
filesystem observations, the remote metadata of local repositories, the
configuration file, and the optional API client (modelled by the list of
organization repository names it would return, `none` when no token is
configured or the call fails — in both cases that source contributes
nothing, per the source's error handling). -/
structure LocatorEnv where
  projectRoot : FPath
  /-- `p.exists()` -/
  pathExists : FPath → Bool
  /-- `(p / ".git").exists()` -/
  hasGitDir : FPath → Bool
  /-- names of the non-hidden subdirectories `iterdir` yields for a directory -/
  children : FPath → List String
  /-- `Repo(p).remotes` is non-empty -/
  hasRemote : FPath → Bool
  /-- repository name successfully extracted from the `origin` URL
  (`none` when the URL is not a parsable github.com URL) -/
  extractedName : FPath → Option String
  github_config : Option GithubConfig
  github_client : Option (List String)

/-- `p.parent` for the component-list path model. -/
def parentPath (p : FPath) : FPath := p.dropLast

/-- The candidate-directory search shared by the configuration branch
(source lines 68-80) and the API branch (lines 130-142): for
`base ∈ [root.parent, root]` try `base/name`, `base/services/name`,
`base/mcp/name`, first hit that exists and has a `.git` directory wins. -/
def autoDetect (env : LocatorEnv) (name : String) : Option FPath :=
  let par := parentPath env.projectRoot
  let root := env.projectRoot
  [par ++ [name], par ++ ["services", name], par ++ ["mcp", name],
   root ++ [name], root ++ ["services", name], root ++ ["mcp", name]].find?
    (fun p => env.pathExists p && env.hasGitDir p)

/-- The configuration branch of `get_repositories_list` (source lines
59-87).  An explicit `local_paths` entry is used as-is (no existence
check); an empty path string is falsy in Python and falls back to the
automatic search. -/
def configRepos (env : LocatorEnv) (cfg : GithubConfig) : List RepoRef :=
  cfg.repositories.filterMap fun n =>
    let explicit := (cfg.local_paths.lookup n).filter (fun p => !p.isEmpty)
    let lp := match explicit with
      | some p => some p
      | none => autoDetect env n
    lp.map fun p => { name := n, org := cfg.organization.getD "trinityweb", local_path := p }

/-- One search directory of `_detect_local_git_repos` (source lines
172-207): every non-hidden child directory holding a `.git` directory and a
configured remote, named from the remote URL with the directory name as
fallback. -/
def detectInDir (env : LocatorEnv) (d : FPath) : List RepoRef :=
  if env.pathExists d then
    (env.children d).filterMap fun c =>
      let p := d ++ [c]
      if env.hasGitDir p && env.hasRemote p then
        some { name := (env.extractedName p).getD c, org := "trinityweb", local_path := p }
      else none
  else []

/-- `UpdateRepositoriesAgent._detect_local_git_repos` (source lines
155-208): scan `services/`, `mcp/` and `agents/` under the project root. -/
def detect_local_git_repos (env : LocatorEnv) : List RepoRef :=
  detectInDir env (env.projectRoot ++ ["services"]) ++
  detectInDir env (env.projectRoot ++ ["mcp"]) ++
  detectInDir env (env.projectRoot ++ ["agents"])

/-- The distinguished agents repository path (source line 95). -/
def agentsPath (env : LocatorEnv) : FPath :=
  env.projectRoot ++ ["agents", "project-management-agents"]

/-- The name assigned to the agents repository in step 3 (source lines
101-112): the default, overridden by a name extracted from the remote URL
when the repository has remotes. -/
def agentsRepoName (env : LocatorEnv) : String :=
  (if env.hasRemote (agentsPath env) then env.extractedName (agentsPath env)
   else none).getD "project-management-agents"

/-- `UpdateRepositoriesAgent.get_repositories_list` (source lines 49-153):
configuration branch, local-scan fallback when that yields nothing, the
always-checked agents supplement (deduplicated by path), and the API branch
when everything else yielded nothing. -/
def get_repositories_list (env : LocatorEnv) : List RepoRef :=
  let repos := match env.github_config with
    | some cfg => configRepos env cfg
    | none => []
  let repos := if repos.isEmpty then detect_local_git_repos env else repos
  let ap := agentsPath env
  let repos :=
    if env.hasGitDir ap && !(repos.any fun r => r.local_path == ap) then
      repos ++ [{ name := agentsRepoName env, org := "trinityweb", local_path := ap }]
    else repos
  if repos.isEmpty then
    match env.github_client with
    | some names =>
        names.filterMap fun n =>
          (autoDetect env n).map fun p => { name := n, org := "trinityweb", local_path := p }
    | none => repos
  else repos

/-! ### Batch orchestrator (`run`, source lines 903-982) -/

/-- One repository as the batch loop sees it: the located ref, the state of
its working tree, and `boom` modelling an unexpected exception raised while
processing it (the scenario the `except` clause at source lines 964-970 is
there for). -/
structure BatchEntry where
  info : RepoRef
  state : RepoState
  boom : Option String
deriving Repr

/-- A result dict as accumulated by `run`.  On the normal path it is the
full `update_repository` result; on the exception path (source lines
966-970) the dict holds only `name`, `success` and `errors` — in
particular *no* `has_conflicts` key, which is modelled by
`has_conflicts = none`. -/
structure RunResult where
  name : String
  success : Bool
  errors : List String
  has_conflicts : Option Bool
deriving DecidableEq, Repr

/-- The result entry the batch loop records for one repository. -/
def batchStep (e : BatchEntry) (auto_commit dry_run : Bool) : RunResult :=
  match e.boom with
  | some msg => { name := e.info.name, success := false, errors := [msg], has_conflicts := none }
  | none =>
      let r := (update_repository e.info e.state auto_commit dry_run).1
      { name := r.name, success := r.success, errors := r.errors,
        has_conflicts := some r.has_conflicts }

/-- `conflicts = sum(1 for r in results if r["has_conflicts"])` (source
line 976): a Python `KeyError` is raised at the first result dict lacking
the key. -/
def conflictsSummary (results : List RunResult) : Except String Nat :=
  results.foldl
    (fun acc r =>
      match acc with
      | .error e => .error e
      | .ok n =>
          match r.has_conflicts with
          | none => .error "KeyError: has_conflicts"
          | some b => .ok (if b then n + 1 else n))
    (.ok 0)

/-- The loop plus summary of `UpdateRepositoriesAgent.run` (source lines
944-982): the per-repository results and the returned boolean, `.error`
when the summary computation raises. -/
def runBatch (entries : List BatchEntry) (auto_commit dry_run : Bool) :
    List RunResult × Except String Bool :=
  let results := entries.map (batchStep · auto_commit dry_run)
  let successful := (results.filter (·.success)).length
  (results, (conflictsSummary results).map fun _ => successful == entries.length)

/-- The full environment `run` operates on: the locator environment plus the
working-tree state and exception behaviour at each path. -/
structure RunEnv where
  loc : LocatorEnv
  repoState : FPath → RepoState
  boom : FPath → Option String

/-- `UpdateRepositoriesAgent.run` (source lines 903-982).  The filesystem
effect of `ensure_agents_repo_exists` (remote provisioning, outside the
reconciliation core) is abstracted by the `ensureEffect` environment
transformer.  Returns the Python return value, or `.error` when an uncaught
exception escapes. -/
def runAgent (env : RunEnv) (ensureEffect : RunEnv → RunEnv) (repoName : Option String)
    (auto_commit dry_run ensure_agents_repo : Bool) : Except String Bool :=
  let env := if ensure_agents_repo then ensureEffect env else env
  let repos := get_repositories_list env.loc
  if repos.isEmpty then .ok false
  else
    let repos : List RepoRef := match repoName with
      | some n => repos.filter (fun r => r.name == n)
      | none => repos
    if repos.isEmpty then .ok false
    else
      (runBatch
        (repos.map fun r => { info := r, state := env.repoState r.local_path,
                              boom := env.boom r.local_path })
        auto_commit dry_run).2

/-! ### Postman-collection merge
(`src/agents/update_documentation/update_documentation_agent.py`) -/

/-- The `info` object of a Postman collection, as far as the merge reads
it: only `description` (read with a default). -/
structure PmInfo where
  description : Option String
deriving DecidableEq, Repr

/-- A parsed Postman collection file.  `info`/`item` are `none` when the
key is missing; the individual items are opaque payloads. -/
structure PmData where
  info : Option PmInfo
  item : Option (List String)
deriving DecidableEq, Repr

/-- A collection file on disk: its parent directory name (the service
name), and its parsed content (`none` when the JSON is malformed). -/
structure PmFile where
  serviceName : String
  parsed : Option PmData
deriving DecidableEq, Repr

/-- `UpdateDocumentationAgent.validate_postman_collection` (source lines
51-82): the JSON parses and has both an `info` and an `item` key. -/
def validate_postman_collection (f : PmFile) : Bool :=
  match f.parsed with
  | none => false
  | some d => d.info.isSome && d.item.isSome

/-- One entry of the combined collection's `item` list (source lines
116-120). -/
structure MergedEntry where
  name : String
  description : String
  item : List String
deriving DecidableEq, Repr

/-- The combined collection (source lines 96-104 for the fixed header). -/
structure CombinedCollection where
  info_name : String
  info_description : String
  info_schema : String
  info_version : String
  item : List MergedEntry
deriving DecidableEq, Repr

/-- The entry built for one valid collection (source lines 115-120):
service name from the parent directory, description from `info` with an
`"Endpoints de <service>"` default, items from the `item` key (default
`[]`). -/
def mergedEntryOf (f : PmFile) : MergedEntry :=
  let d := f.parsed.getD { info := none, item := none }
  { name := f.serviceName
    description :=
      (match d.info with
       | some i => i.description.getD ("Endpoints de " ++ f.serviceName)
       | none => "Endpoints de " ++ f.serviceName)
    item := d.item.getD [] }

/-- `UpdateDocumentationAgent.merge_postman_collections` (source lines
84-128): the fixed header, plus one `item` entry per collection that passes
validation, in input order; invalid collections are skipped. -/
def merge_postman_collections (collections : List PmFile) : CombinedCollection :=
  { info_name := "SaaS - Microservices API Collection"
    info_description := "Colección combinada de todos los endpoints de los servicios"
    info_schema := "https://schema.getpostman.com/json/collection/v2.1.0/collection.json"
    info_version := "1.0.0"
    item := collections.foldl
      (fun acc f =>
        if validate_postman_collection f then acc ++ [mergedEntryOf f] else acc)
      [] }

/-! ### Helper lemmas about the reconciler phases -/

theorem get_repo_status_valid (s : RepoState) : (get_repo_status s).valid = s.valid := by
  unfold get_repo_status; split <;> simp_all

theorem get_repo_status_behind (s : RepoState) (h : s.valid = true) :
    (get_repo_status s).behind = s.behind := by
  unfold get_repo_status; split <;> simp_all

theorem get_repo_status_ahead (s : RepoState) (h : s.valid = true) :
    (get_repo_status s).ahead = s.ahead := by
  unfold get_repo_status; split <;> simp_all

theorem commit_changes_dry (s : RepoState) : (commit_changes s true).2 = (s, []) := by
  unfold commit_changes; split <;> simp

theorem commit_changes_valid (s : RepoState) (d : Bool) :
    (commit_changes s d).2.1.valid = s.valid := by
  unfold commit_changes; split <;> (try split) <;> (try split) <;> (try split) <;> simp

theorem commit_changes_behind (s : RepoState) (d : Bool) :
    (commit_changes s d).2.1.behind = s.behind := by
  unfold commit_changes; split <;> (try split) <;> (try split) <;> (try split) <;> simp

theorem commit_changes_trace (s : RepoState) (d : Bool) :
    (commit_changes s d).2.2 = [] ∨ (commit_changes s d).2.2 = [GitAction.commit] := by
  unfold commit_changes; split <;> (try split) <;> (try split) <;> (try split) <;> simp

theorem commitPhase_dry (s : RepoState) (a : Bool) : (commitPhase s a true).2.2 = (s, []) := by
  unfold commitPhase
  split
  · split
    · rcases h : commit_changes s true with ⟨b, s', tr⟩
      have := commit_changes_dry s
      rw [h] at this
      cases b <;> simp_all
    · rfl
  · rfl

theorem commitPhase_valid (s : RepoState) (a d : Bool) :
    (commitPhase s a d).2.2.1.valid = s.valid := by
  unfold commitPhase
  split
  · split
    · rcases h : commit_changes s d with ⟨b, s', tr⟩
      have := commit_changes_valid s d
      rw [h] at this
      cases b <;> simp_all
    · rfl
  · rfl

theorem commitPhase_behind (s : RepoState) (a d : Bool) :
    (commitPhase s a d).2.2.1.behind = s.behind := by
  unfold commitPhase
  split
  · split
    · rcases h : commit_changes s d with ⟨b, s', tr⟩
      have := commit_changes_behind s d
      rw [h] at this
      cases b <;> simp_all
    · rfl
  · rfl

theorem commitPhase_trace (s : RepoState) (a d : Bool) :
    (commitPhase s a d).2.2.2 = [] ∨ (commitPhase s a d).2.2.2 = [GitAction.commit] := by
  unfold commitPhase
  split
  · split
    · rcases h : commit_changes s d with ⟨b, s', tr⟩
      have := commit_changes_trace s d
      rw [h] at this
      cases b <;> simp_all
    · simp
  · simp

theorem statusAfterCommit_behind (s : RepoState) (a d : Bool) (h : s.valid = true) :
    (statusAfterCommit s a d).behind = s.behind := by
  unfold statusAfterCommit
  dsimp only
  split
  · rw [get_repo_status_behind _ (by rw [commitPhase_valid]; exact h), commitPhase_behind]
  · rw [get_repo_status_behind _ h]

theorem pull_repository_dry (s : RepoState) : (pull_repository s true).2 = (s, []) := by
  unfold pull_repository; split <;> simp

theorem pull_repository_trace (s : RepoState) (d : Bool) :
    (pull_repository s d).2.2 = [] ∨ (pull_repository s d).2.2 = [GitAction.pull] := by
  unfold pull_repository
  split <;> (try split) <;> (try split) <;> (try split) <;> simp

theorem pullPhase_dry (s : RepoState) (b : Nat) : (pullPhase s b true).2.2 = (s, []) := by
  unfold pullPhase
  split
  · rcases h : pull_repository s true with ⟨x, s', tr⟩
    have := pull_repository_dry s
    rw [h] at this
    cases x <;> simp_all
  · rfl

theorem pullPhase_trace (s : RepoState) (b : Nat) (d : Bool) :
    (pullPhase s b d).2.2.2 = [] ∨
      ((pullPhase s b d).2.2.2 = [GitAction.pull] ∧ 0 < b) := by
  unfold pullPhase
  split
  · rcases h : pull_repository s d with ⟨x, s', tr⟩
    have := pull_repository_trace s d
    rw [h] at this
    cases x <;> simp_all
  · simp

theorem push_repository_mem (s : RepoState) (d : Bool)
    (h : GitAction.push ∈ (push_repository s d).2.2) : 0 < s.ahead := by
  unfold push_repository at h
  split at h
  · simp at h
  · rename_i hval
    split at h
    · simp at h
    · rename_i hah
      have hv : s.valid = true := by simpa using hval
      rw [get_repo_status_ahead s hv] at hah
      have hne : s.ahead ≠ 0 := by simpa using hah
      omega

theorem push_repository_trace (s : RepoState) (d : Bool) :
    (push_repository s d).2.2 = [] ∨ (push_repository s d).2.2 = [GitAction.push] := by
  unfold push_repository
  split <;> (try split) <;> (try split) <;> (try split) <;> simp

theorem push_repository_dry (s : RepoState) : (push_repository s true).2 = (s, []) := by
  unfold push_repository; split <;> (try split) <;> simp

theorem pushPhase_trace (s : RepoState) (a : Nat) (d : Bool) :
    (pushPhase s a d).2.2.2 = [] ∨
      ((pushPhase s a d).2.2.2 = [GitAction.push] ∧ 0 < a ∧ 0 < s.ahead) := by
  unfold pushPhase
  split
  · rcases h : push_repository s d with ⟨x, s3, tr⟩
    have htr := push_repository_trace s d
    rw [h] at htr
    rcases htr with h2 | h2
    · cases x <;> simp_all
    · have hm : 0 < s.ahead := by
        apply push_repository_mem s d
        rw [h, h2]
        simp
      cases x <;> simp_all
  · simp

theorem pushPhase_dry (s : RepoState) (a : Nat) : (pushPhase s a true).2.2 = (s, []) := by
  unfold pushPhase
  split
  · rcases h : push_repository s true with ⟨x, s3, tr⟩
    have := push_repository_dry s
    rw [h] at this
    cases x <;> simp_all
  · rfl

theorem update_repository_pull_mem (info : RepoRef) (s : RepoState) (auto dry : Bool)
    (h : GitAction.pull ∈ (update_repository info s auto dry).2.2) : 0 < s.behind := by
  unfold update_repository at h
  dsimp only at h
  split at h
  · simp at h
  · split at h
    · simp at h
    · split at h
      · simp at h
      · rename_i hd hvb hcf
        have hv : s.valid = true := by
          have hx : (get_repo_status s).valid = true := by simpa using hvb
          rwa [get_repo_status_valid] at hx
        unfold reconcileBody at h
        dsimp only at h
        rw [List.mem_append, List.mem_append] at h
        rcases h with (h | h) | h
        · rcases commitPhase_trace s auto dry with he | he <;> rw [he] at h <;> simp at h
        · rcases pullPhase_trace (commitPhase s auto dry).2.2.1
            (statusAfterCommit s auto dry).behind dry with he | ⟨he, hb⟩
          · rw [he] at h; simp at h
          · rwa [statusAfterCommit_behind s auto dry hv] at hb
        · rcases pushPhase_trace (pullPhase (commitPhase s auto dry).2.2.1
              (statusAfterCommit s auto dry).behind dry).2.2.1
              (statusAfterCommit s auto dry).ahead dry with he | ⟨he, _⟩ <;>
            rw [he] at h <;> simp at h

theorem update_repository_push_mem (info : RepoRef) (s : RepoState) (auto dry : Bool)
    (h : GitAction.push ∈ (update_repository info s auto dry).2.2) :
    0 < (statusAfterCommit s auto dry).ahead ∧ 0 < (stateAfterPullPhase s auto dry).ahead := by
  unfold update_repository at h
  dsimp only at h
  split at h
  · simp at h
  · split at h
    · simp at h
    · split at h
      · simp at h
      · unfold reconcileBody at h
        dsimp only at h
        rw [List.mem_append, List.mem_append] at h
        rcases h with (h | h) | h
        · rcases commitPhase_trace s auto dry with he | he <;> rw [he] at h <;> simp at h
        · rcases pullPhase_trace (commitPhase s auto dry).2.2.1
              (statusAfterCommit s auto dry).behind dry with he | ⟨he, _⟩ <;>
            rw [he] at h <;> simp at h
        · rcases pushPhase_trace (pullPhase (commitPhase s auto dry).2.2.1
              (statusAfterCommit s auto dry).behind dry).2.2.1
              (statusAfterCommit s auto dry).ahead dry with he | ⟨he, ha, hs⟩
          · rw [he] at h; simp at h
          · exact ⟨ha, hs⟩

/-! ### Claim theorems for the reconciler -/

/-- C1: for every existing repository whose status reports
`has_conflicts = true`, reconciliation issues no commit, pull or push, and
the result has `success = false`, `has_conflicts = true` and the conflict
error recorded. -/
theorem conflicts_short_circuit (info : RepoRef) (s : RepoState)
    (hex : s.dirExists = true) (hc : (get_repo_status s).has_conflicts = true)
    (auto dry : Bool) :
    (update_repository info s auto dry).1.success = false ∧
    (update_repository info s auto dry).1.has_conflicts = true ∧
    "Conflictos detectados - requiere resolución manual" ∈
      (update_repository info s auto dry).1.errors ∧
    (update_repository info s auto dry).2.2 = [] := by
  have hv : s.valid = true := by
    by_contra h
    simp [get_repo_status, h] at hc
  have hdm : s.isDirty = true ∧ s.conflictMarkers = true := by
    simpa [get_repo_status, hv] using hc
  simp [update_repository, handle_conflicts, hex, get_repo_status, hv, hdm.1, hdm.2]

/-- The input of the C4 counterexample: a dirty repository that is 3 behind
and 1 ahead, reconciled with `auto_commit = false`, `dry_run = false`. -/
def c4info : RepoRef := { name := "svc", org := "trinityweb", local_path := ["root", "services", "svc"] }

/-- The repository state of the C4 counterexample. -/
def c4state : RepoState :=
  { dirExists := true, valid := true, invalidError := "", isDirty := true, untracked := 0
    branch := "main", ahead := 1, behind := 3, conflictMarkers := false
    pullError := false, pushError := false, commitError := false }

/-- A concrete conflicted repository, input of the C1 witness. -/
def c1state : RepoState :=
  { dirExists := true, valid := true, invalidError := "", isDirty := true, untracked := 1
    branch := "main", ahead := 2, behind := 2, conflictMarkers := true
    pullError := false, pushError := false, commitError := false }

/-- Witness for C1: a concrete dirty, conflicted repository. -/
theorem conflicts_short_circuit_witness :
    (update_repository c4info c1state true false).1.success = false ∧
    (update_repository c4info c1state true false).1.has_conflicts = true ∧
    "Conflictos detectados - requiere resolución manual" ∈
      (update_repository c4info c1state true false).1.errors ∧
    (update_repository c4info c1state true false).2.2 = [] :=
  conflicts_short_circuit c4info c1state rfl rfl true false

/-- C3: the reconciliation result's `success` flag is true exactly when the
error list is empty or at least one of pull/push completed. -/
theorem success_iff_no_errors_or_progress (info : RepoRef) (s : RepoState) (auto dry : Bool) :
    (update_repository info s auto dry).1.success = true ↔
      ((update_repository info s auto dry).1.errors = [] ∨
       (update_repository info s auto dry).1.pulled = true ∨
       (update_repository info s auto dry).1.pushed = true) := by
  unfold update_repository
  dsimp only
  split
  · simp
  · split
    · simp
    · split
      · simp
      · have hrb : (reconcileBody info s auto dry).1.success
            = ((reconcileBody info s auto dry).1.errors.isEmpty
               || (reconcileBody info s auto dry).1.pulled
               || (reconcileBody info s auto dry).1.pushed) := rfl
        rw [hrb]
        simp [List.isEmpty_iff, or_assoc]

/-- C5: a pull is executed only when the consulted status is behind the
remote, and a push only when the consulted (post-commit) status and the
tree at push time are ahead of it; with `behind = 0` no pull happens and
with post-commit `ahead = 0` no push happens. -/
theorem pull_push_guards (info : RepoRef) (s : RepoState) (auto dry : Bool) :
    (GitAction.pull ∈ (update_repository info s auto dry).2.2 → 0 < s.behind) ∧
    (s.behind = 0 → GitAction.pull ∉ (update_repository info s auto dry).2.2) ∧
    (GitAction.push ∈ (update_repository info s auto dry).2.2 →
      0 < (statusAfterCommit s auto dry).ahead ∧
      0 < (stateAfterPullPhase s auto dry).ahead) ∧
    ((statusAfterCommit s auto dry).ahead = 0 →
      GitAction.push ∉ (update_repository info s auto dry).2.2) := by
  refine ⟨update_repository_pull_mem info s auto dry, ?_,
    update_repository_push_mem info s auto dry, ?_⟩
  · intro hb hm
    have hx := update_repository_pull_mem info s auto dry hm
    omega
  · intro ha hm
    have hx := (update_repository_push_mem info s auto dry hm).1
    omega

/-- A concrete clean, up-to-date repository, input of the C5 witness. -/
def c5state : RepoState :=
  { dirExists := true, valid := true, invalidError := "", isDirty := false, untracked := 0
    branch := "main", ahead := 0, behind := 0, conflictMarkers := false
    pullError := false, pushError := false, commitError := false }

/-- Witness for C5: on a concrete up-to-date repository no push is
executed. -/
theorem pull_push_guards_witness :
    GitAction.push ∉ (update_repository c4info c5state false false).2.2 :=
  (pull_push_guards c4info c5state false false).2.2.2 rfl

/-- C6: with `dry_run = true` reconciliation issues no git action and
leaves the repository state untouched, so a second dry run returns exactly
the same output. -/
theorem dry_run_no_mutation (info : RepoRef) (s : RepoState) (auto : Bool) :
    (update_repository info s auto true).2.1 = s ∧
    (update_repository info s auto true).2.2 = [] ∧
    update_repository info (update_repository info s auto true).2.1 auto true
      = update_repository info s auto true := by
  have key : (update_repository info s auto true).2 = (s, []) := by
    unfold update_repository
    dsimp only
    split
    · rfl
    · split
      · rfl
      · split
        · rfl
        · unfold reconcileBody
          dsimp only
          have e1 : (commitPhase s auto true).2.2.1 = s := by rw [commitPhase_dry]
          have e2 : (commitPhase s auto true).2.2.2 = ([] : List GitAction) := by
            rw [commitPhase_dry]
          rw [e1, e2]
          have e3 : (pullPhase s (statusAfterCommit s auto true).behind true).2.2.1 = s := by
            rw [pullPhase_dry]
          have e4 : (pullPhase s (statusAfterCommit s auto true).behind true).2.2.2
              = ([] : List GitAction) := by rw [pullPhase_dry]
          rw [e3, e4]
          have e5 : (pushPhase s (statusAfterCommit s auto true).ahead true).2.2.1 = s := by
            rw [pushPhase_dry]
          have e6 : (pushPhase s (statusAfterCommit s auto true).ahead true).2.2.2
              = ([] : List GitAction) := by rw [pushPhase_dry]
          rw [e5, e6]
          simp
  have k1 : (update_repository info s auto true).2.1 = s := by rw [key]
  have k2 : (update_repository info s auto true).2.2 = [] := by rw [key]
  exact ⟨k1, k2, by rw [k1]⟩

/-- C4 counterexample: a dirty repository with `behind = 3` and `ahead = 1`
whose push succeeds ends with `success = true`, contradicting the claim
that `success = false` for every dirty, behind repository reconciled with
`auto_commit = false`. -/
theorem dirty_pull_refusal_counterexample :
    c4state.isDirty = true ∧ c4state.behind = 3 ∧
    ¬ ((update_repository c4info c4state false false).1.success = false) := by
  refine ⟨rfl, rfl, ?_⟩
  have h : (update_repository c4info c4state false false).1.success = true := rfl
  simp [h]

/-- C4 (amended): for a dirty, conflict-free repository that is behind the
remote, reconciled for real (`dry_run = false`) with `auto_commit = false`
or a failing commit step, the pull itself is never executed, the pull
failure is recorded in the error list, and `success` is false unless a
push completed (`success` equals `pushed`). -/
theorem dirty_pull_refusal_amended (info : RepoRef) (s : RepoState) (auto : Bool)
    (hex : s.dirExists = true) (hv : s.valid = true) (hd : s.isDirty = true)
    (hb : 0 < s.behind) (hm : s.conflictMarkers = false)
    (hcase : auto = false ∨ s.commitError = true) :
    (update_repository info s auto false).1.pulled = false ∧
    "Error al hacer pull" ∈ (update_repository info s auto false).1.errors ∧
    (update_repository info s auto false).1.success
      = (update_repository info s auto false).1.pushed ∧
    GitAction.pull ∉ (update_repository info s auto false).2.2 := by
  have hcp1 : (commitPhase s auto false).1 = false := by
    rcases hcase with h | h
    · rw [h]; rfl
    · cases auto
      · rfl
      · simp [commitPhase, commit_changes, hd, hv, h]
  have hs1 : (commitPhase s auto false).2.2.1 = s := by
    rcases hcase with h | h
    · rw [h]; rfl
    · cases auto
      · rfl
      · simp [commitPhase, commit_changes, hd, hv, h]
  have hst : statusAfterCommit s auto false = get_repo_status s := by
    unfold statusAfterCommit
    dsimp only
    rw [hcp1]
    simp
  have hpR : pull_repository s false = (false, s, []) := by
    simp [pull_repository, hv, hd]
  have hbb : (statusAfterCommit s auto false).behind = s.behind := by
    rw [hst, get_repo_status_behind s hv]
  have hpp : pullPhase (commitPhase s auto false).2.2.1
      (statusAfterCommit s auto false).behind false
      = (false, ["Error al hacer pull"], s, []) := by
    rw [hs1, hbb]
    simp [pullPhase, hb, hpR]
  have hgr : update_repository info s auto false = reconcileBody info s auto false := by
    simp [update_repository, hex, handle_conflicts, get_repo_status, hv, hm]
  rw [hgr]
  unfold reconcileBody
  dsimp only
  rw [hpp]
  rcases commitPhase_trace s auto false with hct | hct <;>
    rcases pushPhase_trace s (statusAfterCommit s auto false).ahead false with hqt | ⟨hqt, _⟩ <;>
      simp [hct, hqt]

/-- Witness for the amended C4: the concrete scenario of the spec
(`is_dirty = true`, `behind = 3`) with one local commit to push. -/
theorem dirty_pull_refusal_amended_witness :
    (update_repository c4info c4state false false).1.pulled = false ∧
    "Error al hacer pull" ∈ (update_repository c4info c4state false false).1.errors ∧
    (update_repository c4info c4state false false).1.success
      = (update_repository c4info c4state false false).1.pushed ∧
    GitAction.pull ∉ (update_repository c4info c4state false false).2.2 :=
  dirty_pull_refusal_amended c4info c4state false rfl rfl rfl (by decide) rfl (Or.inl rfl)

/-! ### Claim theorems for the batch orchestrator -/

/-- A repository whose reconciliation succeeds, first entry of the C2
batch. -/
def c2okEntry : BatchEntry :=
  { info := { name := "svc-ok", org := "trinityweb", local_path := ["root", "services", "svc-ok"] }
    state := c5state, boom := none }

/-- A repository whose processing raises an unexpected exception, second
entry of the C2 batch. -/
def c2boomEntry : BatchEntry :=
  { info := { name := "svc-boom", org := "trinityweb", local_path := ["root", "services", "svc-boom"] }
    state := c5state, boom := some "RuntimeError: boom" }

/-- C2: on a batch of two repositories where the second raises an
unexpected exception, the loop does record two results with only the
second unsuccessful — but the final summary then raises a `KeyError`,
because the exception-path result dict has no `has_conflicts` key (source
line 976 reads `r["has_conflicts"]`), so the run never completes and never
reports the summary. -/
theorem run_batch_summary_keyerror :
    ((runBatch [c2okEntry, c2boomEntry] false false).1.map (fun r => r.success)
      = [true, false]) ∧
    (runBatch [c2okEntry, c2boomEntry] false false).1.length = 2 ∧
    (runBatch [c2okEntry, c2boomEntry] false false).2 = .error "KeyError: has_conflicts" := by
  refine ⟨rfl, rfl, rfl⟩

/-- C10: when the locator resolves zero repositories the run returns
`False` (so the process exits 1) for every flag combination and filter,
before reconciling anything. -/
theorem run_no_repos_returns_false (env : RunEnv) (eff : RunEnv → RunEnv)
    (rn : Option String) (a d e : Bool)
    (h : get_repositories_list (if e then eff env else env).loc = []) :
    runAgent env eff rn a d e = .ok false := by
  unfold runAgent
  dsimp only
  rw [h]
  simp

/-- A locator environment in which nothing resolves. -/
def emptyLoc : LocatorEnv :=
  { projectRoot := ["root"], pathExists := fun _ => false, hasGitDir := fun _ => false
    children := fun _ => [], hasRemote := fun _ => false, extractedName := fun _ => none
    github_config := none, github_client := none }

/-- A run environment over `emptyLoc`. -/
def emptyRunEnv : RunEnv := { loc := emptyLoc, repoState := fun _ => c5state, boom := fun _ => none }

/-- Witness for C10: the empty environment. -/
theorem run_no_repos_returns_false_witness :
    runAgent emptyRunEnv id none false false true = .ok false :=
  run_no_repos_returns_false emptyRunEnv id none false false true rfl

/-! ### Claim theorems for the repository locator -/

/-- The configuration of the C7 counterexample: two repository names whose
`local_paths` entries point at the same directory. -/
def c7cfg : GithubConfig :=
  { organization := none, repositories := ["a", "b"], local_paths := [("a", ["x"]), ("b", ["x"])] }

/-- The locator environment of the C7 counterexample. -/
def c7loc : LocatorEnv :=
  { projectRoot := ["root"], pathExists := fun _ => false, hasGitDir := fun _ => false
    children := fun _ => [], hasRemote := fun _ => false, extractedName := fun _ => none
    github_config := some c7cfg, github_client := none }

/-- C7 counterexample: with a configuration mapping two repository names to
the same local path, `get_repositories_list` returns two entries with the
same `local_path` — the result is not unique by local path. -/
theorem locator_paths_unique_counterexample :
    ¬ (((get_repositories_list c7loc).map (fun r => r.local_path)).Nodup) := by
  decide

theorem getLast_pair (l : List String) (a b : String) : (l ++ [a, b]).getLast? = some b := by
  have h : l ++ [a, b] = (l ++ [a]) ++ [b] := by simp
  rw [h]
  exact List.getLast?_concat _

theorem autoDetect_getLast (env : LocatorEnv) (n : String) (p : FPath)
    (h : autoDetect env n = some p) : p.getLast? = some n := by
  unfold autoDetect at h
  have hm := List.mem_of_find?_eq_some h
  simp only [List.mem_cons, List.not_mem_nil, or_false] at hm
  rcases hm with h1 | h1 | h1 | h1 | h1 | h1 <;> rw [h1] <;>
    first
      | exact List.getLast?_concat _
      | exact getLast_pair _ _ _

theorem detectInDir_path_shape (env : LocatorEnv) (d : FPath) (p : FPath)
    (h : p ∈ (detectInDir env d).map (fun r => r.local_path)) :
    ∃ c, c ∈ env.children d ∧ p = d ++ [c] := by
  unfold detectInDir at h
  split at h
  · rw [List.map_filterMap] at h
    rw [List.mem_filterMap] at h
    rcases h with ⟨c, hc, he⟩
    revert he
    dsimp only
    split
    · intro he
      simp at he
      exact ⟨c, hc, he.symm⟩
    · intro he
      simp at he
  · simp at h

theorem detectInDir_nodup (env : LocatorEnv) (d : FPath) (h : (env.children d).Nodup) :
    ((detectInDir env d).map (fun r => r.local_path)).Nodup := by
  unfold detectInDir
  split
  · rw [List.map_filterMap]
    apply h.filterMap
    intro a a' b hb hb'
    revert hb hb'
    dsimp only
    split <;> split <;> intro hb hb' <;> simp at hb hb'
    have hx : d ++ [a] = d ++ [a'] := by rw [hb, hb']
    have h2 := List.append_cancel_left hx
    simpa using h2
  · simp

theorem detect_disjoint (env : LocatorEnv) (x y : String) (hxy : x ≠ y) :
    ((detectInDir env (env.projectRoot ++ [x])).map (fun r => r.local_path)).Disjoint
      ((detectInDir env (env.projectRoot ++ [y])).map (fun r => r.local_path)) := by
  intro p hpx hpy
  obtain ⟨c, _, hc⟩ := detectInDir_path_shape env _ p hpx
  obtain ⟨c', _, hc'⟩ := detectInDir_path_shape env _ p hpy
  rw [hc] at hc'
  rw [List.append_assoc, List.append_assoc] at hc'
  have h2 := List.append_cancel_left hc'
  simp at h2
  exact hxy h2.1

theorem detect_local_nodup (env : LocatorEnv) (hch : ∀ d, (env.children d).Nodup) :
    ((detect_local_git_repos env).map (fun r => r.local_path)).Nodup := by
  unfold detect_local_git_repos
  rw [List.map_append, List.map_append, List.nodup_append, List.nodup_append]
  refine ⟨⟨detectInDir_nodup env _ (hch _), detectInDir_nodup env _ (hch _),
    detect_disjoint env "services" "mcp" (by decide)⟩,
    detectInDir_nodup env _ (hch _), ?_⟩
  intro p hp hpc
  rw [List.mem_append] at hp
  rcases hp with hp | hp
  · exact detect_disjoint env "services" "agents" (by decide) hp hpc
  · exact detect_disjoint env "mcp" "agents" (by decide) hp hpc

theorem apiBranch_nodup (env : LocatorEnv) (names : List String) (hn : names.Nodup) :
    ((names.filterMap fun n => (autoDetect env n).map
        fun p => RepoRef.mk n "trinityweb" p).map (fun r => r.local_path)).Nodup := by
  rw [List.map_filterMap]
  apply hn.filterMap
  intro a a' b hb hb'
  have key : ∀ (n : String), b ∈ ((autoDetect env n).map
      fun p => RepoRef.mk n "trinityweb" p).map (fun r => r.local_path) →
      b.getLast? = some n := by
    intro n hbn
    rcases hd : autoDetect env n with _ | q
    · rw [hd] at hbn
      simp at hbn
    · rw [hd] at hbn
      simp at hbn
      rw [← hbn]
      exact autoDetect_getLast env n q hd
  have h1 := key a hb
  have h2 := key a' hb'
  rw [h1] at h2
  exact (Option.some.injEq _ _).mp h2.symm |>.symm

/-- C7 (amended): the locator result is unique by `local_path` whenever the
repositories come from the local scan, the agents supplement and the API
fallback (assuming directory listings and the API repository list are
duplicate-free, as they are in reality); a populated configuration file,
by contrast, is not deduplicated and can repeat a local path. -/
theorem locator_paths_unique_amended (env : LocatorEnv)
    (hcfg : env.github_config = none)
    (hch : ∀ d, (env.children d).Nodup)
    (hapi : ∀ ns, env.github_client = some ns → ns.Nodup) :
    ((get_repositories_list env).map (fun r => r.local_path)).Nodup := by
  have hform : get_repositories_list env =
      (let D := detect_local_git_repos env
       let ap := agentsPath env
       let repos :=
         if env.hasGitDir ap && !(D.any fun r => r.local_path == ap) then
           D ++ [RepoRef.mk (agentsRepoName env) "trinityweb" ap]
         else D
       if repos.isEmpty then
         match env.github_client with
         | some names =>
             names.filterMap fun n =>
               (autoDetect env n).map fun p => RepoRef.mk n "trinityweb" p
         | none => repos
       else repos) := by
    unfold get_repositories_list
    rw [hcfg]
    rfl
  rw [hform]
  dsimp only
  split
  · rename_i hcond
    have hany : (detect_local_git_repos env).all
        (fun r => !(r.local_path == agentsPath env)) = true := by
      have h2 := (Bool.and_eq_true _ _).mp hcond |>.2
      simpa [List.any_eq_not_all_not] using h2
    have hnotin : agentsPath env ∉
        (detect_local_git_repos env).map (fun r => r.local_path) := by
      intro hmem
      rw [List.mem_map] at hmem
      rcases hmem with ⟨r, hr, hp⟩
      have hx := (List.all_eq_true.mp hany) r hr
      simp at hx
      exact hx hp
    have hie : (detect_local_git_repos env ++
        [RepoRef.mk (agentsRepoName env) "trinityweb" (agentsPath env)]).isEmpty = false := by
      simp [List.isEmpty_iff]
    rw [hie]
    simp only [Bool.false_eq_true, if_false, List.map_append]
    rw [List.nodup_append]
    refine ⟨detect_local_nodup env hch, by simp, ?_⟩
    intro p hp hpc
    simp at hpc
    rw [hpc] at hp
    exact hnotin hp
  · split
    · rename_i hDe
      rcases hgc : env.github_client with _ | names
      · have hnil := List.isEmpty_iff.mp hDe
        rw [hnil]
        simp
      · exact apiBranch_nodup env names (hapi names hgc)
    · exact detect_local_nodup env hch

/-- A locator environment with no configuration, one service repository
and the agents repository, input of the C7 witness. -/
def c7okLoc : LocatorEnv :=
  { projectRoot := ["root"]
    pathExists := fun p => p == ["root", "services"] || p == ["root", "agents"]
    hasGitDir := fun p => p == ["root", "services", "svc-a"]
      || p == ["root", "agents", "project-management-agents"]
    children := fun p =>
      if p == ["root", "services"] then ["svc-a"]
      else if p == ["root", "agents"] then ["project-management-agents"]
      else []
    hasRemote := fun _ => true
    extractedName := fun _ => none
    github_config := none, github_client := none }

/-- Witness for the amended C7: the scan-based environment resolves a
duplicate-free set of local paths. -/
theorem locator_paths_unique_amended_witness :
    ((get_repositories_list c7okLoc).map (fun r => r.local_path)).Nodup :=
  locator_paths_unique_amended c7okLoc rfl
    (by
      intro d
      unfold c7okLoc
      dsimp only
      split
      · simp
      · split <;> simp)
    (by
      intro ns h
      exact Option.noConfusion h)

/-- The configuration of the C8 counterexample. -/
def c8cfg : GithubConfig :=
  { organization := none, repositories := ["svc-a"]
    local_paths := [("svc-a", ["root", "services", "svc-a"])] }

/-- The locator environment of the C8 counterexample: a populated
configuration, and the agents repository present on disk with a remote. -/
def c8loc : LocatorEnv :=
  { projectRoot := ["root"]
    pathExists := fun p => p == ["root", "agents"]
    hasGitDir := fun p => p == ["root", "agents", "project-management-agents"]
    children := fun p => if p == ["root", "agents"] then ["project-management-agents"] else []
    hasRemote := fun p => p == ["root", "agents", "project-management-agents"]
    extractedName := fun _ => none
    github_config := some c8cfg, github_client := none }

/-- C8 counterexample: with a populated configuration yielding a non-empty
set, the agents repository is scan-detectable and absent from the
configuration, yet it does appear in the locator result — refuting the
claim that no scan-detectable repository outside the configuration shows
up. -/
theorem config_exclusive_counterexample :
    c8loc.github_config = some c8cfg ∧
    configRepos c8loc c8cfg ≠ [] ∧
    agentsPath c8loc ∈ (detect_local_git_repos c8loc).map (fun r => r.local_path) ∧
    agentsPath c8loc ∉ (configRepos c8loc c8cfg).map (fun r => r.local_path) ∧
    agentsPath c8loc ∈ (get_repositories_list c8loc).map (fun r => r.local_path) := by
  refine ⟨rfl, by decide, by decide, by decide, by decide⟩

/-- C8 (amended): when the configuration yields a non-empty repository
set, that set is used exclusively — every located repository is
configuration-derived — except for the distinguished agents repository
path, which is always supplemented when it has version-control metadata. -/
theorem config_exclusive_amended (env : LocatorEnv) (cfg : GithubConfig)
    (hcfg : env.github_config = some cfg) (hne : configRepos env cfg ≠ []) :
    ∀ r ∈ get_repositories_list env, r ∈ configRepos env cfg ∨ r.local_path = agentsPath env := by
  intro r hr
  unfold get_repositories_list at hr
  rw [hcfg] at hr
  dsimp only at hr
  have hie : (configRepos env cfg).isEmpty = false := by
    simpa [List.isEmpty_iff] using hne
  rw [hie] at hr
  simp only [Bool.false_eq_true, if_false] at hr
  split at hr
  · have hne2 : (configRepos env cfg ++
        [RepoRef.mk (agentsRepoName env) "trinityweb" (agentsPath env)]).isEmpty
        = false := by
      simp [List.isEmpty_iff]
    rw [hne2] at hr
    simp only [Bool.false_eq_true, if_false, List.mem_append, List.mem_singleton] at hr
    rcases hr with hr | hr
    · exact Or.inl hr
    · right
      rw [hr]
  · rw [hie] at hr
    simp only [Bool.false_eq_true, if_false] at hr
    exact Or.inl hr

/-- Witness for the amended C8: in the counterexample environment the
located agents entry is covered by the amended disjunction. -/
theorem config_exclusive_amended_witness :
    RepoRef.mk "project-management-agents" "trinityweb" (agentsPath c8loc)
      ∈ configRepos c8loc c8cfg ∨
    (RepoRef.mk "project-management-agents" "trinityweb" (agentsPath c8loc)).local_path
      = agentsPath c8loc :=
  config_exclusive_amended c8loc c8cfg rfl (by decide) _ (by decide)

/-! ### Claim theorem for the Postman-collection merge -/

theorem merge_foldl_general (fs : List PmFile) (acc : List MergedEntry) :
    fs.foldl (fun acc f =>
        if validate_postman_collection f then acc ++ [mergedEntryOf f] else acc) acc
      = acc ++ (fs.filter (fun f => validate_postman_collection f)).map mergedEntryOf := by
  induction fs generalizing acc with
  | nil => simp
  | cons f fs ih =>
      by_cases h : validate_postman_collection f = true
      · simp [List.filter, h, ih]
      · simp [List.filter, h, ih]

/-- C9: the combined collection's `item` list holds exactly one entry per
collection that passes validation, in input order — invalid collections
are skipped without aborting the merge — and each entry carries the
collection's service name and its `item` payload. -/
theorem merge_skips_invalid (fs : List PmFile) :
    (merge_postman_collections fs).item
      = (fs.filter (fun f => validate_postman_collection f)).map mergedEntryOf ∧
    ∀ f d, f.parsed = some d → validate_postman_collection f = true →
      (mergedEntryOf f).name = f.serviceName ∧ (mergedEntryOf f).item = d.item.getD [] := by
  constructor
  · show (fs.foldl _ []) = _
    rw [merge_foldl_general]
    simp
  · intro f d hp _
    constructor
    · rfl
    · simp [mergedEntryOf, hp]

/-- A valid two-item collection under service directory `svc-a`. -/
def c9a : PmFile :=
  { serviceName := "svc-a"
    parsed := some { info := some { description := some "A endpoints" }, item := some ["a1", "a2"] } }

/-- A valid one-item collection under service directory `svc-b`. -/
def c9b : PmFile :=
  { serviceName := "svc-b"
    parsed := some { info := some { description := none }, item := some ["b1"] } }

/-- A malformed-JSON collection file. -/
def c9bad : PmFile := { serviceName := "svc-c", parsed := none }

/-- Witness for C9: the spec's scenario — `svc-a` (2 items), a malformed
third collection, `svc-b` (1 item). -/
theorem merge_skips_invalid_witness :
    (mergedEntryOf c9a).name = c9a.serviceName ∧
    (mergedEntryOf c9a).item = ["a1", "a2"] ∧
    (merge_postman_collections [c9a, c9bad, c9b]).item
      = [mergedEntryOf c9a, mergedEntryOf c9b] := by
  have h := merge_skips_invalid [c9a, c9bad, c9b]
  refine ⟨(h.2 c9a _ rfl rfl).1, ?_, ?_⟩
  · have h2 := (h.2 c9a _ rfl rfl).2
    simpa using h2
  · rw [h.1]
    rfl

end PMA
